import Mathlib

/-!
Shallow embedding of the consumer-group coordinator of
`yellowstone-grpc-tools/src/scylladb/yellowstone_log/consumer_group`
(files `consumer_source.rs` and `coordinator.rs`), together with proofs
of the behavioural properties stated in the specification.

Rust `BTreeMap<K, V>` values are modelled as association lists sorted
strictly by key; `collect()` into a `BTreeMap` is modelled by folding
`insertBT` over the pair list (later pairs overwrite earlier ones with
the same key, exactly as `BTreeMap::from_iter` does).  Opaque identifier
types (`ConsumerGroupId`, `ConsumerId`, `ExecutionId`, `ProducerId`,
`ShardId`) are modelled as `Nat`; `Offset`, `Slot` and `Revision`
(Rust `i64`) as `Int`; `Duration` as a number of milliseconds.
-/

namespace Yellowstone

/-- `BlockchainEventType` from `types.rs`: the closed enumeration of
subscribable event kinds, ordered `AccountUpdate < NewTransaction`. -/
inductive BlockchainEventType : Type
  | accountUpdate
  | newTransaction
deriving DecidableEq, Repr

/-- Key order of `BlockchainEventType` as used by `BTreeMap`. -/
def BlockchainEventType.toNat : BlockchainEventType → Nat
  | .accountUpdate => 0
  | .newTransaction => 1

/-- `ShardOffsetMap = BTreeMap<ShardId, (ShardOffset, Slot)>`:
association list from shard id to `(offset, slot)`. -/
abbrev ShardOffsetMap := List (Nat × (Int × Int))

/-- `BTreeMap::insert` on a key-sorted association list. -/
def insertBT {α : Type} (k : Nat) (v : α) : List (Nat × α) → List (Nat × α)
  | [] => [(k, v)]
  | (k', v') :: rest =>
    if k < k' then (k, v) :: (k', v') :: rest
    else if k = k' then (k, v) :: rest
    else (k', v') :: insertBT k v rest

/-- `BTreeMap::from_iter` / `.collect::<BTreeMap<_,_>>()`: fold the pairs
into an empty map in iteration order; a later pair overwrites an earlier
pair with the same key. -/
def collectBT {α : Type} (l : List (Nat × α)) : List (Nat × α) :=
  l.foldl (fun m p => insertBT p.1 p.2 m) []

/-- `BTreeMap::get` (as an association-list lookup). -/
def lookupBT {α : Type} (l : List (Nat × α)) (k : Nat) : Option α :=
  (l.find? (fun p => p.1 == k)).map (·.2)

/-- `BTreeMap::remove` (the part that deletes the binding). -/
def eraseBT {α : Type} (l : List (Nat × α)) (k : Nat) : List (Nat × α) :=
  l.filter (fun p => ¬ p.1 = k)

/-- Keys strictly increase along the list: the representation invariant
of a `BTreeMap` association list. -/
def SortedKeys {α : Type} (l : List (Nat × α)) : Prop :=
  l.Pairwise (fun a b => a.1 < b.1)

/-- `ShardIterator` (`shard_iterator.rs`): the per-shard cursor.  Only the
fields read by `consumer_source.rs` are modelled: `shard_id`,
`last_offset()`, `last_slot` and `event_type`.
`ShardIterator::new(session, producer_id, shard_id, offset, slot, ev_type,
filter)` initialises the cursor at `(offset, slot)`. -/
structure ShardIterator where
  shard_id : Nat
  last_offset : Int
  last_slot : Int
  event_type : BlockchainEventType
deriving DecidableEq, Repr

/-- `ConsumerContext` (`context.rs`): the fields of the context that
`consumer_source.rs` and the commit path read. -/
structure ConsumerContext where
  consumer_group_id : Nat
  consumer_id : Nat
  producer_id : Nat
  execution_id : Nat
  subscribed_event_types : List BlockchainEventType
deriving DecidableEq, Repr

/-- `DEFAULT_OFFSET_COMMIT_INTERVAL = Duration::from_millis(500)`. -/
def DEFAULT_OFFSET_COMMIT_INTERVAL : Nat := 500

/-- `ConsumerSource<T>`: the state read by the loop and the commit path
(the prepared statements and the sink sender are modelled behaviourally,
not as data). -/
structure ConsumerSource where
  ctx : ConsumerContext
  offset_commit_interval : Nat
  shard_iterators : List (Nat × ShardIterator)
deriving DecidableEq, Repr

/-- The `shard_iterators` vector built by the `try_join_all` at the head
of `ConsumerSource::new`: `shard_offset_map_per_blockchain_event_type`
flattened into `(ev_type, shard_id, (offset, slot))` triples in
`BTreeMap` iteration order, one `ShardIterator::new` per triple. -/
def newShardIteratorList
    (shard_offset_map_per_blockchain_event_type :
      List (BlockchainEventType × ShardOffsetMap)) : List ShardIterator :=
  (shard_offset_map_per_blockchain_event_type.flatMap
    (fun p => p.2.map (fun q => (p.1, q.1, q.2)))).map
    (fun t => { shard_id := t.2.1, last_offset := t.2.2.1,
                last_slot := t.2.2.2, event_type := t.1 })

/-- `ConsumerSource::new`: build the iterators of
`newShardIteratorList`, then store them keyed by `shard_id` via
`.collect()` into a `BTreeMap<ShardId, ShardIterator>`.  The commit
interval defaults to `DEFAULT_OFFSET_COMMIT_INTERVAL`. -/
def consumerSourceNew (ctx : ConsumerContext)
    (shard_offset_map_per_blockchain_event_type :
      List (BlockchainEventType × ShardOffsetMap))
    (offset_commit_interval : Option Nat) : ConsumerSource :=
  { ctx := ctx
    offset_commit_interval :=
      offset_commit_interval.getD DEFAULT_OFFSET_COMMIT_INTERVAL
    shard_iterators :=
      collectBT
        ((newShardIteratorList shard_offset_map_per_blockchain_event_type).map
          (fun it => (it.shard_id, it))) }

/-- `ConsumerSource::get_shard_offset_map`: iterate `shard_iterators`,
keep the iterators of the requested event type, and collect
`(shard_id, (last_offset, last_slot))` into a `ShardOffsetMap`. -/
def getShardOffsetMap (src : ConsumerSource)
    (ev_type : BlockchainEventType) : ShardOffsetMap :=
  collectBT
    ((src.shard_iterators.filter (fun p => p.2.event_type = ev_type)).map
      (fun p => (p.1, (p.2.last_offset, p.2.last_slot))))

/-- The event-type fold at the head of
`ConsumerSource::update_consumer_shard_offsets_v2`: the
`match (b1, b2)` selecting `(acc_shard_offsets, tx_shard_offsets)`.
`none` models the `panic!("no blockchain event subscribed to")` arm. -/
def commitOffsetMaps (src : ConsumerSource) :
    Option (ShardOffsetMap × ShardOffsetMap) :=
  let b1 := src.ctx.subscribed_event_types.contains .accountUpdate
  let b2 := src.ctx.subscribed_event_types.contains .newTransaction
  match b1, b2 with
  | true, false =>
    let map := getShardOffsetMap src .accountUpdate
    some (map, map)
  | false, true =>
    let map := getShardOffsetMap src .newTransaction
    some (map, map)
  | true, true =>
    some (getShardOffsetMap src .accountUpdate,
          getShardOffsetMap src .newTransaction)
  | false, false => none

/-- A row of the durable table `consumer_shard_offset_v2`, keyed by
`(consumer_group_id, consumer_id, execution_id)`. -/
structure OffsetRowV2 where
  acc_shard_offset_map : ShardOffsetMap
  tx_shard_offset_map : ShardOffsetMap
  revision : Int
deriving DecidableEq, Repr

/-- The store's semantics of the LWT statement
`UPDATE_CONSUMER_SHARD_OFFSET_V2`: apply the `SET` clause and return
`LwtResult(true)` iff the stored `revision < condRev` predicate holds;
otherwise leave the row unchanged and return `LwtResult(false)`. -/
def lwtUpdateV2 (row : OffsetRowV2) (acc tx : ShardOffsetMap)
    (newRev condRev : Int) : OffsetRowV2 × Bool :=
  if row.revision < condRev then
    ({ acc_shard_offset_map := acc, tx_shard_offset_map := tx,
       revision := newRev }, true)
  else (row, false)

/-- Externally visible operations issued by the commit path, in order. -/
inductive StoreOp : Type
  | genFencingToken (token : Int)
  | condUpdateV2 (consumer_group_id consumer_id execution_id : Nat)
      (acc tx : ShardOffsetMap) (newRev condRev : Int)
deriving DecidableEq, Repr

/-- `ConsumerSource::update_consumer_shard_offsets_v2` run against a
store holding `row`, where `ctx.generate_fencing_token()` yields
`token`.  Returns `none` on the `panic!` arm; otherwise the list of
store operations issued, the row after the conditional update, and the
function's result (`bail!("Failed to update shard offset, lock is
compromised")` when `LwtResult(false)` comes back). -/
def updateConsumerShardOffsetsV2 (src : ConsumerSource) (token : Int)
    (row : OffsetRowV2) :
    Option (List StoreOp × OffsetRowV2 × Except String Unit) :=
  match commitOffsetMaps src with
  | none => none
  | some (acc_shard_offsets, tx_shard_offsets) =>
    let (row', applied) :=
      lwtUpdateV2 row acc_shard_offsets tx_shard_offsets token token
    some ([StoreOp.genFencingToken token,
           StoreOp.condUpdateV2 src.ctx.consumer_group_id
             src.ctx.consumer_id src.ctx.execution_id
             acc_shard_offsets tx_shard_offsets token token],
          row',
          if applied then Except.ok ()
          else Except.error "Failed to update shard offset, lock is compromised")

/-! ### The main loop (`ConsumerSource::run`)

One iteration of the `for (shard_id, shard_it)` sweep consumes one
`interrupt.try_recv()` result and, when that result is `Empty`, one
`shard_it.try_next()` result; the list of `(try_recv, try_next)` pairs
below supplies both in sweep order.  The commit performed inside the
sweep is `update_consumer_shard_offsets_v2`; its result (after `?`) is
abstracted as `commitRes`. -/

/-- Outcome of one `interrupt.try_recv()` call. -/
inductive TryRecv : Type
  | ok
  | closed
  | empty
deriving DecidableEq, Repr

/-- `BlockchainEvent`: the fields the loop reads (`slot`) plus an opaque
payload tag distinguishing events. -/
structure BlockchainEvent where
  shard_id : Nat
  offset : Int
  slot : Int
deriving DecidableEq, Repr

/-- Observable actions of the loop, in program order. -/
inductive Action : Type
  | send (ev : BlockchainEvent)
  | commit
deriving DecidableEq, Repr

/-- The `for (shard_id, shard_it) in self.shard_iterators.iter_mut()`
body of `ConsumerSource::run`, iterated over the sweep: each step first
matches `interrupt.try_recv()` (`Ok` commits once and returns `Ok(())`
— propagating a commit failure through `?` —, `Closed` bails with
"detected orphan consumer source", `Empty` falls through), then awaits
`shard_it.try_next()` (an `Err` propagates through `?`; `Some` event is
sent to the sink, bailing when the sink is closed).  Returns the actions
performed and `some r` when the function returns with `r` inside the
sweep, `none` when the sweep runs to completion. -/
def sweepIters (sinkOpen : Bool) (commitRes : Except String Unit) :
    List (TryRecv × Except String (Option BlockchainEvent)) →
    List Action × Option (Except String Unit)
  | [] => ([], none)
  | (tr, pr) :: rest =>
    match tr with
    | .ok => ([Action.commit], some commitRes)
    | .closed => ([], some (Except.error "detected orphan consumer source"))
    | .empty =>
      match pr with
      | .error e => ([], some (Except.error e))
      | .ok none => sweepIters sinkOpen commitRes rest
      | .ok (some ev) =>
        if sinkOpen then
          let (acts, res) := sweepIters sinkOpen commitRes rest
          (Action.send ev :: acts, res)
        else ([], some (Except.error "consumer closed its streaming half"))

/-- One full iteration of the outer `loop` of `ConsumerSource::run`:
the sweep over all iterators followed by the periodic-commit check
`commit_offset_deadline.elapsed() > Duration::ZERO` (true iff
`deadline < now`).  On a periodic commit the deadline becomes
`Instant::now() + offset_commit_interval` (`nowAfterCommit + interval`);
a commit failure propagates through `?`.  Returns the actions, `some r`
when `run` returns with `r`, and the deadline for the next iteration. -/
def runLoopIter (sinkOpen : Bool) (commitRes : Except String Unit)
    (steps : List (TryRecv × Except String (Option BlockchainEvent)))
    (now deadline nowAfterCommit interval : Nat) :
    List Action × Option (Except String Unit) × Nat :=
  match sweepIters sinkOpen commitRes steps with
  | (acts, some r) => (acts, some r, deadline)
  | (acts, none) =>
    if deadline < now then
      match commitRes with
      | .ok _ => (acts ++ [Action.commit], none, nowAfterCommit + interval)
      | .error e => (acts ++ [Action.commit], some (Except.error e), deadline)
    else (acts, none, deadline)

/-! ### The coordinator (`coordinator.rs`) -/

/-- A spawned task handle, identified by a fresh task id (the model's
stand-in for a `JoinHandle`); `consumer_group_id` is the group it serves,
matching the fields of `ElectionHandle` and `LeaderHandle`. -/
structure TaskHandle where
  consumer_group_id : Nat
  task_id : Nat
deriving DecidableEq, Repr

/-- `LeaderInfo` (from `leader.rs`): the observed leader, opaque here. -/
structure LeaderInfo where
  info_id : Nat
deriving DecidableEq, Repr

/-- The coordinator-backend state touched by the claims:
`background_leader_attempt` and `leader_handles` are
`BTreeMap<ConsumerGroupId, _>`; `next_task_id` mints fresh task ids for
`tokio::spawn`. -/
structure BackendState where
  background_leader_attempt : List (Nat × TaskHandle)
  leader_handles : List (Nat × TaskHandle)
  next_task_id : Nat
deriving DecidableEq, Repr

/-- `ConsumerGroupCoordinatorBackend::try_become_leader_bg`: spawn a
`try_become_leader` future for the group only through
`entry(consumer_group_id).or_insert_with(...)` — when an election
handle for the group already exists, nothing is spawned. -/
def tryBecomeLeaderBg (st : BackendState) (consumer_group_id : Nat) :
    BackendState :=
  match lookupBT st.background_leader_attempt consumer_group_id with
  | some _ => st
  | none =>
    { st with
      background_leader_attempt :=
        insertBT consumer_group_id
          { consumer_group_id := consumer_group_id,
            task_id := st.next_task_id }
          st.background_leader_attempt
      next_task_id := st.next_task_id + 1 }

/-- The leader-election step of
`ConsumerGroupCoordinatorBackend::try_spawn_consumer_member`:
after reading `leader_election_watch.borrow_and_update()` into
`maybe_leader_info`, a background election is launched iff
`maybe_leader_info.is_none()`. -/
def trySpawnConsumerMemberElection (st : BackendState)
    (maybe_leader_info : Option LeaderInfo) (consumer_group_id : Nat) :
    BackendState :=
  if maybe_leader_info.isNone then tryBecomeLeaderBg st consumer_group_id
  else st

/-- Side effects of the coordinator loop observable outside its state. -/
inductive CoordEffect : Type
  | spawnedLeaderNode (task_id : Nat)
  | abortedTask (task_id : Nat)
  | loggedLostElection
  | loggedElectionError (e : String)
deriving DecidableEq, Repr

/-- `ConsumerGroupCoordinatorBackend::create_leader_node`: spawn a
`ConsumerGroupLeaderNode` task, insert its handle into
`leader_handles`, and `kill()` (abort) the handle the insert displaced,
when one existed. -/
def createLeaderNode (st : BackendState) (consumer_group_id : Nat) :
    BackendState × List CoordEffect :=
  let leader_handle : TaskHandle :=
    { consumer_group_id := consumer_group_id, task_id := st.next_task_id }
  let maybe_old := lookupBT st.leader_handles consumer_group_id
  ({ st with
     leader_handles := insertBT consumer_group_id leader_handle
       st.leader_handles
     next_task_id := st.next_task_id + 1 },
   CoordEffect.spawnedLeaderNode st.next_task_id ::
     (match maybe_old with
      | some old => [CoordEffect.abortedTask old.task_id]
      | none => []))

/-- `ElectionResult = anyhow::Result<Option<(LeaderKey, ManagedLease)>>`:
`won` carries the `(leader_key, leader_lease)` pair. -/
inductive ElectionOutcome : Type
  | won (leader_key leader_lease : Nat)
  | lost
  | errored (e : String)
deriving DecidableEq, Repr

/-- The `wait_for_election_result` arm of
`ConsumerGroupCoordinatorBackend::run`: remove the group's entry from
`background_leader_attempt`, then on `Ok(Some(..))` call
`create_leader_node`; `Ok(None)` and `Err(_)` only log. -/
def onElectionResolved (st : BackendState) (consumer_group_id : Nat)
    (result : ElectionOutcome) : BackendState × List CoordEffect :=
  let st1 := { st with
    background_leader_attempt :=
      eraseBT st.background_leader_attempt consumer_group_id }
  match result with
  | .won _ _ => createLeaderNode st1 consumer_group_id
  | .lost => (st1, [CoordEffect.loggedLostElection])
  | .errored e => (st1, [CoordEffect.loggedElectionError e])

/-- Outcome of one of the public client entry points of
`ConsumerGroupCoordinator`. -/
inductive ClientOutcome (α : Type) : Type
  | ok (a : α)
  | err (e : String)
  | panicked (msg : String)
deriving DecidableEq, Repr

/-- `ConsumerGroupCoordinator::create_consumer_group`: send the
`CreateConsumerGroup` command to the backend; when the command channel
is closed the send fails and the function hits
`panic!("ConsumerGroupCoordinatorBackend channel is closed")`; otherwise
`rx.await?` yields the backend's reply. -/
def createConsumerGroupEntry (channelOpen : Bool)
    (backendReply : Except String Nat) : ClientOutcome Nat :=
  if channelOpen then
    match backendReply with
    | .ok id => ClientOutcome.ok id
    | .error e => ClientOutcome.err e
  else ClientOutcome.panicked "ConsumerGroupCoordinatorBackend channel is closed"

/-- `ConsumerGroupCoordinator::try_join_consumer_group`: the send of the
`JoinGroup` command uses `?`, so a closed command channel returns the
send error to the caller; otherwise `rx.await??` yields the permit and
`join_permit.spawn(sink)` runs. -/
def tryJoinConsumerGroupEntry (channelOpen : Bool)
    (backendReply : Except String Unit) (spawnRes : Except String Unit) :
    ClientOutcome Unit :=
  if channelOpen then
    match backendReply with
    | .ok _ =>
      match spawnRes with
      | .ok _ => ClientOutcome.ok ()
      | .error e => ClientOutcome.err e
    | .error e => ClientOutcome.err e
  else ClientOutcome.err "channel closed"

/-! ### Association-list lemmas for the `BTreeMap` model -/

theorem beq_false_of_ne {a b : Nat} (h : ¬ a = b) : (a == b) = false := by
  simpa using h

theorem lookupBT_insertBT {α : Type} (k k' : Nat) (v : α)
    (m : List (Nat × α)) :
    lookupBT (insertBT k v m) k' =
      if k' = k then some v else lookupBT m k' := by
  induction m with
  | nil =>
    by_cases h : k' = k
    · subst h; simp [insertBT, lookupBT, List.find?]
    · have hb := beq_false_of_ne (fun hc => h hc.symm)
      simp [insertBT, lookupBT, List.find?, hb, h]
  | cons p rest ih =>
    obtain ⟨k₀, v₀⟩ := p
    simp only [insertBT]
    by_cases h1 : k < k₀
    · rw [if_pos h1]
      by_cases h : k' = k
      · subst h
        simp [lookupBT, List.find?]
      · have hb := beq_false_of_ne (fun hc => h hc.symm)
        simp [lookupBT, List.find?, hb, h]
    · rw [if_neg h1]
      by_cases h2 : k = k₀
      · subst h2
        rw [if_pos rfl]
        by_cases h : k' = k
        · subst h
          simp [lookupBT, List.find?]
        · have hb := beq_false_of_ne (fun hc => h hc.symm)
          simp [lookupBT, List.find?, hb, h]
      · rw [if_neg h2]
        by_cases h : k' = k₀
        · subst h
          have hk : ¬ k' = k := fun hc => h2 hc.symm
          have hb := beq_false_of_ne (fun hc => hk hc.symm)
          simp [lookupBT, List.find?, hb, hk]
        · have hb := beq_false_of_ne (fun hc => h hc.symm)
          simp only [lookupBT, List.find?, hb] at ih ⊢
          exact ih

theorem mem_insertBT {α : Type} {q : Nat × α} {k : Nat} {v : α}
    {m : List (Nat × α)} (h : q ∈ insertBT k v m) :
    q = (k, v) ∨ q ∈ m := by
  induction m with
  | nil => simpa [insertBT] using h
  | cons p rest ih =>
    simp only [insertBT] at h
    by_cases h1 : k < p.1
    · rw [if_pos h1] at h
      exact List.mem_cons.mp h
    · rw [if_neg h1] at h
      by_cases h2 : k = p.1
      · rw [if_pos h2] at h
        rcases List.mem_cons.mp h with h | h
        · exact Or.inl h
        · exact Or.inr (List.mem_cons_of_mem _ h)
      · rw [if_neg h2] at h
        rcases List.mem_cons.mp h with h | h
        · exact Or.inr (by simp [h])
        · rcases ih h with h' | h'
          · exact Or.inl h'
          · exact Or.inr (List.mem_cons_of_mem _ h')

theorem sortedKeys_insertBT {α : Type} (k : Nat) (v : α)
    {m : List (Nat × α)} (h : SortedKeys m) :
    SortedKeys (insertBT k v m) := by
  induction m with
  | nil => simp [insertBT, SortedKeys]
  | cons p rest ih =>
    rw [SortedKeys, List.pairwise_cons] at h
    obtain ⟨hp, hrest⟩ := h
    simp only [insertBT]
    by_cases h1 : k < p.1
    · rw [if_pos h1]
      refine List.Pairwise.cons ?_ (List.Pairwise.cons hp hrest)
      intro q hq
      rcases List.mem_cons.mp hq with hq | hq
      · simpa [hq] using h1
      · exact lt_trans h1 (hp q hq)
    · rw [if_neg h1]
      by_cases h2 : k = p.1
      · rw [if_pos h2]
        subst h2
        exact List.Pairwise.cons hp hrest
      · rw [if_neg h2]
        refine List.Pairwise.cons ?_ (ih hrest)
        intro q hq
        rcases mem_insertBT hq with hq' | hq'
        · have : p.1 < k := lt_of_le_of_ne (not_lt.mp h1) (fun hc => h2 hc.symm)
          simpa [hq'] using this
        · exact hp q hq'

theorem mem_foldl_insertBT {α : Type} {q : Nat × α} :
    ∀ (l m : List (Nat × α)),
      q ∈ l.foldl (fun acc p => insertBT p.1 p.2 acc) m → q ∈ l ∨ q ∈ m := by
  intro l
  induction l with
  | nil => intro m h; exact Or.inr h
  | cons p rest ih =>
    intro m h
    rcases ih (insertBT p.1 p.2 m) h with h' | h'
    · exact Or.inl (List.mem_cons_of_mem _ h')
    · rcases mem_insertBT h' with h'' | h''
      · exact Or.inl (by simp [h''])
      · exact Or.inr h''

theorem mem_collectBT {α : Type} {q : Nat × α} {l : List (Nat × α)}
    (h : q ∈ collectBT l) : q ∈ l := by
  rcases mem_foldl_insertBT l [] h with h' | h'
  · exact h'
  · simp at h'

theorem sortedKeys_foldl_insertBT {α : Type} :
    ∀ (l m : List (Nat × α)), SortedKeys m →
      SortedKeys (l.foldl (fun acc p => insertBT p.1 p.2 acc) m) := by
  intro l
  induction l with
  | nil => intro m h; exact h
  | cons p rest ih =>
    intro m h
    exact ih _ (sortedKeys_insertBT p.1 p.2 h)

theorem sortedKeys_collectBT {α : Type} (l : List (Nat × α)) :
    SortedKeys (collectBT l) :=
  sortedKeys_foldl_insertBT l [] (by simp [SortedKeys])

theorem lookupBT_foldl_insertBT {α : Type} (k : Nat) :
    ∀ (l m : List (Nat × α)),
      lookupBT (l.foldl (fun acc p => insertBT p.1 p.2 acc) m) k =
        ((l.reverse.find? (fun p => p.1 == k)).map (·.2)).or (lookupBT m k) := by
  intro l
  induction l with
  | nil => intro m; simp
  | cons p rest ih =>
    intro m
    simp only [List.foldl_cons, List.reverse_cons, List.find?_append]
    rw [ih]
    rw [lookupBT_insertBT]
    cases hfind : rest.reverse.find? (fun p => p.1 == k) with
    | some q => simp [hfind]
    | none =>
      simp only [hfind, Option.map_none, Option.none_or]
      by_cases hk : p.1 = k
      · have hb : (p.1 == k) = true := by simpa [beq_iff_eq] using hk
        have hkk : k = p.1 := hk.symm
        simp [List.find?, hb, hkk]
      · have hb : (p.1 == k) = false := by simpa [beq_iff_eq] using hk
        have hkk : ¬ k = p.1 := fun hc => hk hc.symm
        simp [List.find?, hb, hkk]

theorem lookupBT_collectBT {α : Type} (k : Nat) (l : List (Nat × α)) :
    lookupBT (collectBT l) k =
      (l.reverse.find? (fun p => p.1 == k)).map (·.2) := by
  rw [collectBT, lookupBT_foldl_insertBT]
  simp [lookupBT]

theorem insertBT_append_of_gt {α : Type} (k : Nat) (v : α) :
    ∀ (m : List (Nat × α)), (∀ q ∈ m, q.1 < k) →
      insertBT k v m = m ++ [(k, v)] := by
  intro m
  induction m with
  | nil => intro _; simp [insertBT]
  | cons p rest ih =>
    intro h
    have hp : p.1 < k := h p (by simp)
    simp only [insertBT]
    rw [if_neg (by omega), if_neg (by omega)]
    rw [ih (fun q hq => h q (List.mem_cons_of_mem _ hq))]
    simp

theorem collectBT_sorted_id {α : Type} (l : List (Nat × α))
    (h : SortedKeys l) : collectBT l = l := by
  induction l using List.reverseRecOn with
  | nil => simp [collectBT]
  | append_singleton xs p ih =>
    rw [SortedKeys, List.pairwise_append] at h
    obtain ⟨hxs, _, hcross⟩ := h
    have hcoll : collectBT (xs ++ [p]) = insertBT p.1 p.2 (collectBT xs) := by
      simp [collectBT, List.foldl_append]
    rw [hcoll, ih hxs]
    exact insertBT_append_of_gt p.1 p.2 xs
      (fun q hq => hcross q hq p (by simp))

theorem lookupBT_eraseBT {α : Type} (k : Nat) (l : List (Nat × α)) :
    lookupBT (eraseBT l k) k = none := by
  induction l with
  | nil => simp [eraseBT, lookupBT]
  | cons p rest ih =>
    by_cases h : p.1 = k
    · simpa [eraseBT, h] using ih
    · have hb : (p.1 == k) = false := by simpa [beq_iff_eq] using h
      simp only [eraseBT, List.filter_cons]
      rw [if_pos (by simpa using h)]
      simp only [lookupBT, List.find?, hb]
      simp only [eraseBT, lookupBT] at ih
      exact ih

/-! ### Concrete instances used by witness theorems -/

/-- A context subscribed to `AccountUpdate` only. -/
def exCtxAcc : ConsumerContext :=
  { consumer_group_id := 1, consumer_id := 2, producer_id := 3,
    execution_id := 4, subscribed_event_types := [.accountUpdate] }

/-- One account-update iterator on shard 0. -/
def exIter0 : ShardIterator :=
  { shard_id := 0, last_offset := 5, last_slot := 10,
    event_type := .accountUpdate }

/-- A source subscribed to `AccountUpdate` with the single iterator. -/
def exSrcAcc : ConsumerSource :=
  { ctx := exCtxAcc, offset_commit_interval := 500,
    shard_iterators := [(0, exIter0)] }

/-- A stored row with revision 0. -/
def exRow : OffsetRowV2 :=
  { acc_shard_offset_map := [], tx_shard_offset_map := [], revision := 0 }

/-! ### C1: the fenced conditional commit -/

/-- C1: whenever `update_consumer_shard_offsets_v2` does not panic, it
requests one fencing token and then issues exactly one conditional
update of the `consumer_shard_offset_v2` row keyed by
`(consumer_group_id, consumer_id, execution_id)` (the operation list is
the two-element list below, so there is no retry); the row is rewritten
to the collected snapshots with `revision = token` exactly when the
stored revision is strictly below the token, and otherwise the row is
unchanged and the commit fails with the fatal "lock is compromised"
error. -/
theorem commit_fenced_conditional_update (src : ConsumerSource)
    (token : Int) (row : OffsetRowV2)
    (h : (commitOffsetMaps src).isSome) :
    ∃ acc tx, commitOffsetMaps src = some (acc, tx) ∧
      updateConsumerShardOffsetsV2 src token row =
        some ([StoreOp.genFencingToken token,
               StoreOp.condUpdateV2 src.ctx.consumer_group_id
                 src.ctx.consumer_id src.ctx.execution_id
                 acc tx token token],
              (if row.revision < token then
                 { acc_shard_offset_map := acc, tx_shard_offset_map := tx,
                   revision := token }
               else row),
              (if row.revision < token then Except.ok ()
               else Except.error
                 "Failed to update shard offset, lock is compromised")) := by
  rw [Option.isSome_iff_exists] at h
  obtain ⟨mp, hmp⟩ := h
  obtain ⟨acc, tx⟩ := mp
  refine ⟨acc, tx, hmp, ?_⟩
  unfold updateConsumerShardOffsetsV2
  rw [hmp]
  by_cases hrev : row.revision < token <;>
    simp [lwtUpdateV2, hrev]

/-- Witness for C1 at a concrete source, token 1 and stored revision 0. -/
theorem commit_fenced_conditional_update_witness :
    (commitOffsetMaps exSrcAcc).isSome = true ∧
      (∃ acc tx, commitOffsetMaps exSrcAcc = some (acc, tx) ∧
        updateConsumerShardOffsetsV2 exSrcAcc 1 exRow =
          some ([StoreOp.genFencingToken 1,
                 StoreOp.condUpdateV2 exSrcAcc.ctx.consumer_group_id
                   exSrcAcc.ctx.consumer_id exSrcAcc.ctx.execution_id
                   acc tx 1 1],
                (if exRow.revision < 1 then
                   { acc_shard_offset_map := acc, tx_shard_offset_map := tx,
                     revision := 1 }
                 else exRow),
                (if exRow.revision < 1 then Except.ok ()
                 else Except.error
                   "Failed to update shard offset, lock is compromised"))) :=
  ⟨by decide, commit_fenced_conditional_update exSrcAcc 1 exRow (by decide)⟩

/-! ### C4: single-event-type folding -/

/-- C4: when exactly one event type is subscribed (`AccountUpdate` only,
or `NewTransaction` only), the pair of maps written by the commit is the
single subscribed type's snapshot duplicated into both columns. -/
theorem commit_single_type_duplicates_snapshot (src : ConsumerSource) :
    (src.ctx.subscribed_event_types.contains
        BlockchainEventType.accountUpdate = true →
      src.ctx.subscribed_event_types.contains
        BlockchainEventType.newTransaction = false →
      commitOffsetMaps src =
        some (getShardOffsetMap src .accountUpdate,
              getShardOffsetMap src .accountUpdate)) ∧
    (src.ctx.subscribed_event_types.contains
        BlockchainEventType.accountUpdate = false →
      src.ctx.subscribed_event_types.contains
        BlockchainEventType.newTransaction = true →
      commitOffsetMaps src =
        some (getShardOffsetMap src .newTransaction,
              getShardOffsetMap src .newTransaction)) := by
  constructor
  · intro h1 h2
    unfold commitOffsetMaps
    rw [h1, h2]
  · intro h1 h2
    unfold commitOffsetMaps
    rw [h1, h2]

/-- Witness for C4 at the `AccountUpdate`-only source. -/
theorem commit_single_type_duplicates_snapshot_witness :
    commitOffsetMaps exSrcAcc =
      some (getShardOffsetMap exSrcAcc .accountUpdate,
            getShardOffsetMap exSrcAcc .accountUpdate) :=
  (commit_single_type_duplicates_snapshot exSrcAcc).1 (by decide) (by decide)

/-! ### C5: snapshot collection per event type -/

/-- C5: the snapshot collected for an event type holds exactly the
`(shard_id, (last_offset, last_slot))` pairs of the iterators with that
event type; when no iterator has the event type, the snapshot is the
empty map (not an error). -/
theorem get_shard_offset_map_spec (src : ConsumerSource)
    (h : SortedKeys src.shard_iterators) (t : BlockchainEventType)
    (k : Nat) (o s : Int) :
    (((k, (o, s)) ∈ getShardOffsetMap src t) ↔
      ∃ it : ShardIterator, (k, it) ∈ src.shard_iterators ∧
        it.event_type = t ∧ it.last_offset = o ∧ it.last_slot = s) ∧
    ((∀ p ∈ src.shard_iterators,
        (p : Nat × ShardIterator).2.event_type ≠ t) →
      getShardOffsetMap src t = []) := by
  have hfil : SortedKeys
      ((src.shard_iterators.filter (fun p => p.2.event_type = t)).map
        (fun p => (p.1, (p.2.last_offset, p.2.last_slot)))) := by
    refine List.Pairwise.map _ ?_ (List.Pairwise.filter _ h)
    intro a b hab
    simpa using hab
  have hid : getShardOffsetMap src t =
      (src.shard_iterators.filter (fun p => p.2.event_type = t)).map
        (fun p => (p.1, (p.2.last_offset, p.2.last_slot))) := by
    unfold getShardOffsetMap
    exact collectBT_sorted_id _ hfil
  constructor
  · rw [hid]
    constructor
    · intro hm
      rcases List.mem_map.mp hm with ⟨p, hp, hpe⟩
      obtain ⟨pk, pit⟩ := p
      rcases List.mem_filter.mp hp with ⟨hpm, hpt⟩
      simp only [Prod.mk.injEq] at hpe
      obtain ⟨hk, ho, hs⟩ := hpe
      subst hk
      exact ⟨pit, hpm, by simpa using hpt, ho, hs⟩
    · rintro ⟨it, hmem, ht, ho, hs⟩
      refine List.mem_map.mpr ⟨(k, it), ?_, by simp [ho, hs]⟩
      exact List.mem_filter.mpr ⟨hmem, by simpa using ht⟩
  · intro hnone
    rw [hid]
    have : src.shard_iterators.filter (fun p => p.2.event_type = t) = [] := by
      rw [List.filter_eq_nil_iff]
      intro p hp
      simpa using hnone p hp
    rw [this]
    simp

/-- Witness for C5: at the concrete source, shard 0's snapshot entry is
recovered through the characterisation, and the `NewTransaction`
snapshot is empty. -/
theorem get_shard_offset_map_spec_witness :
    ((0, ((5 : Int), (10 : Int))) ∈ getShardOffsetMap exSrcAcc .accountUpdate)
      ∧ getShardOffsetMap exSrcAcc .newTransaction = [] :=
  ⟨(get_shard_offset_map_spec exSrcAcc (by simp [exSrcAcc, SortedKeys])
      .accountUpdate 0 5 10).1.mpr
      ⟨exIter0, by simp [exSrcAcc], by simp [exIter0], by simp [exIter0],
        by simp [exIter0]⟩,
    (get_shard_offset_map_spec exSrcAcc (by simp [exSrcAcc, SortedKeys])
      .newTransaction 0 0 0).2
      (by intro p hp; simp [exSrcAcc] at hp; simp [hp, exIter0])⟩

/-! ### C6: the panic branch is unreachable -/

/-- C6: when at least one of `AccountUpdate` / `NewTransaction` is among
the subscribed event types, `update_consumer_shard_offsets_v2` never
reaches the `panic!("no blockchain event subscribed to")` arm. -/
theorem commit_no_panic_when_subscribed (src : ConsumerSource)
    (token : Int) (row : OffsetRowV2)
    (h : BlockchainEventType.accountUpdate ∈ src.ctx.subscribed_event_types ∨
      BlockchainEventType.newTransaction ∈ src.ctx.subscribed_event_types) :
    (updateConsumerShardOffsetsV2 src token row).isSome := by
  have hsome : (commitOffsetMaps src).isSome := by
    unfold commitOffsetMaps
    rcases h with h | h
    · have hb : src.ctx.subscribed_event_types.contains
          BlockchainEventType.accountUpdate = true := by simp [h]
      rw [hb]
      cases hb2 : src.ctx.subscribed_event_types.contains
          BlockchainEventType.newTransaction <;> simp
    · have hb : src.ctx.subscribed_event_types.contains
          BlockchainEventType.newTransaction = true := by simp [h]
      rw [hb]
      cases hb2 : src.ctx.subscribed_event_types.contains
          BlockchainEventType.accountUpdate <;> simp
  rw [Option.isSome_iff_exists] at hsome
  obtain ⟨mp, hmp⟩ := hsome
  obtain ⟨acc, tx⟩ := mp
  unfold updateConsumerShardOffsetsV2
  rw [hmp]
  simp

/-- Witness for C6 at the `AccountUpdate`-only source. -/
theorem commit_no_panic_when_subscribed_witness :
    (updateConsumerShardOffsetsV2 exSrcAcc 1 exRow).isSome = true :=
  commit_no_panic_when_subscribed exSrcAcc 1 exRow (Or.inl (by decide))

/-! ### C2: iterator retention at construction -/

/-- A context subscribed to both event types. -/
def exCtxBoth : ConsumerContext :=
  { consumer_group_id := 1, consumer_id := 2, producer_id := 3,
    execution_id := 4,
    subscribed_event_types := [.accountUpdate, .newTransaction] }

/-- Input in which both subscribed event types list shard 0. -/
def exInputSharedShard : List (BlockchainEventType × ShardOffsetMap) :=
  [(.accountUpdate, [(0, (5, 1))]), (.newTransaction, [(0, (7, 2))])]

/-- C2 counterexample: with `AccountUpdate` and `NewTransaction` both
listing shard 0, `ConsumerSource::new` creates two iterators but the
`BTreeMap<ShardId, ShardIterator>` collect keyed by `shard_id` alone
retains only one of them (the `NewTransaction` one, created later), so
the source does not hold one iterator per `(event_type, shard)` pair. -/
theorem consumer_source_new_shared_shard_collapses :
    (newShardIteratorList exInputSharedShard).length = 2 ∧
    (consumerSourceNew exCtxBoth exInputSharedShard none).shard_iterators.length
      = 1 ∧
    lookupBT
      (consumerSourceNew exCtxBoth exInputSharedShard none).shard_iterators 0 =
      some { shard_id := 0, last_offset := 7, last_slot := 2,
             event_type := .newTransaction } := by
  refine ⟨rfl, rfl, rfl⟩

/-- C2 amended: after construction the source holds at most one iterator
per shard id (the retained map's keys strictly increase); for each shard
id, the retained iterator is the last one created for that shard in
construction order — event types in ascending key order — so when two
subscribed event types list the same shard id only the later event
type's iterator is retained, and the sweep visits these retained
iterators. -/
theorem consumer_source_new_one_iterator_per_shard (ctx : ConsumerContext)
    (input : List (BlockchainEventType × ShardOffsetMap))
    (oci : Option Nat) (k : Nat) :
    SortedKeys (consumerSourceNew ctx input oci).shard_iterators ∧
    lookupBT (consumerSourceNew ctx input oci).shard_iterators k =
      ((((newShardIteratorList input).map (fun it => (it.shard_id, it))).reverse.find?
          (fun p => p.1 == k)).map (·.2)) := by
  constructor
  · exact sortedKeys_collectBT _
  · exact lookupBT_collectBT k _

/-! ### C3: interrupt handling in the main loop -/

/-- The event sent for one sweep step, when any: the step's `try_next`
result when it is `Ok(Some(event))`. -/
def evtOf (p : TryRecv × Except String (Option BlockchainEvent)) :
    Option BlockchainEvent :=
  match p.2 with
  | .ok o => o
  | .error _ => none

/-- C3: the sweep checks the interrupt channel before polling each
iterator.  After steps that saw an empty interrupt channel, a step whose
`try_recv` returns `Ok` makes the sweep perform exactly one final commit
(the last action of the trace, so no event is sent afterwards) and
return `Ok(())` when the commit succeeds; a step whose `try_recv` finds
the channel closed makes the sweep bail with "detected orphan consumer
source" without committing. -/
theorem run_interrupt_handling (commitRes : Except String Unit)
    (prefixSteps rest : List (TryRecv × Except String (Option BlockchainEvent)))
    (pr pr' : Except String (Option BlockchainEvent))
    (hpre : ∀ p ∈ prefixSteps,
      p.1 = TryRecv.empty ∧ ∃ o, p.2 = Except.ok o) :
    (sweepIters true (Except.ok ())
        (prefixSteps ++ (TryRecv.ok, pr) :: rest) =
      ((prefixSteps.filterMap evtOf).map Action.send ++ [Action.commit],
       some (Except.ok ()))) ∧
    (sweepIters true commitRes
        (prefixSteps ++ (TryRecv.closed, pr') :: rest) =
      ((prefixSteps.filterMap evtOf).map Action.send,
       some (Except.error "detected orphan consumer source"))) := by
  induction prefixSteps with
  | nil =>
    constructor
    · simp [sweepIters]
    · simp [sweepIters]
  | cons p ps ih =>
    obtain ⟨tr, prr⟩ := p
    obtain ⟨hp1, o, hp2⟩ := hpre (tr, prr) (by simp)
    replace hp1 : tr = TryRecv.empty := hp1
    replace hp2 : prr = Except.ok o := hp2
    subst hp1
    subst hp2
    have ih' := ih (fun q hq => hpre q (List.mem_cons_of_mem _ hq))
    cases o with
    | none =>
      constructor
      · simpa [sweepIters, evtOf] using ih'.1
      · simpa [sweepIters, evtOf] using ih'.2
    | some ev =>
      constructor
      · rw [List.cons_append]
        simp only [sweepIters, evtOf]
        rw [ih'.1]
        simp [evtOf]
      · rw [List.cons_append]
        simp only [sweepIters, evtOf]
        rw [ih'.2]
        simp [evtOf]

/-- A concrete event for the C3 witness. -/
def exEvent : BlockchainEvent := { shard_id := 0, offset := 6, slot := 11 }

/-- Witness for C3: one quiet step delivering an event, then an
interrupt (respectively a closed channel). -/
theorem run_interrupt_handling_witness :
    (∀ p ∈ [(TryRecv.empty, Except.ok (some exEvent))],
      p.1 = TryRecv.empty ∧
        ∃ o, p.2 = (Except.ok o : Except String (Option BlockchainEvent))) ∧
    (sweepIters true (Except.ok ())
        ([(TryRecv.empty, Except.ok (some exEvent))] ++
          (TryRecv.ok, Except.ok none) :: []) =
      (([(TryRecv.empty, Except.ok (some exEvent))].filterMap evtOf).map
          Action.send ++ [Action.commit],
       some (Except.ok ()))) ∧
    (sweepIters true (Except.ok ())
        ([(TryRecv.empty, Except.ok (some exEvent))] ++
          (TryRecv.closed, Except.ok none) :: []) =
      (([(TryRecv.empty, Except.ok (some exEvent))].filterMap evtOf).map
          Action.send,
       some (Except.error "detected orphan consumer source"))) := by
  have h := run_interrupt_handling (Except.ok ())
    [(TryRecv.empty, Except.ok (some exEvent))] []
    (Except.ok none) (Except.ok none)
    (by intro p hp; simp at hp; subst hp; exact ⟨rfl, some exEvent, rfl⟩)
  exact ⟨by intro p hp; simp at hp; subst hp; exact ⟨rfl, some exEvent, rfl⟩,
    h.1, h.2⟩

/-! ### C7: default commit interval and periodic-commit scheduling -/

/-- C7: with no explicit commit interval `ConsumerSource::new` uses the
500 ms default; and in the main loop, when the sweep runs to completion
(no early return), the periodic commit happens at the end of the sweep
exactly when the commit deadline has elapsed, after which the deadline
becomes one interval after the post-commit instant. -/
theorem periodic_commit_schedule (ctx : ConsumerContext)
    (m : List (BlockchainEventType × ShardOffsetMap)) (sinkOpen : Bool)
    (steps : List (TryRecv × Except String (Option BlockchainEvent)))
    (now deadline nowAfter interval : Nat) (acts : List Action)
    (hsweep : sweepIters sinkOpen (Except.ok ()) steps = (acts, none)) :
    (consumerSourceNew ctx m none).offset_commit_interval =
        DEFAULT_OFFSET_COMMIT_INTERVAL ∧
      DEFAULT_OFFSET_COMMIT_INTERVAL = 500 ∧
      runLoopIter sinkOpen (Except.ok ()) steps now deadline
          nowAfter interval =
        (if deadline < now then
          (acts ++ [Action.commit], none, nowAfter + interval)
         else (acts, none, deadline)) := by
  refine ⟨rfl, rfl, ?_⟩
  unfold runLoopIter
  rw [hsweep]

/-- Witness for C7: empty sweep, elapsed deadline. -/
theorem periodic_commit_schedule_witness :
    sweepIters true (Except.ok ())
        ([] : List (TryRecv × Except String (Option BlockchainEvent))) =
      ([], none) ∧
    ((consumerSourceNew exCtxAcc [] none).offset_commit_interval =
        DEFAULT_OFFSET_COMMIT_INTERVAL ∧
      DEFAULT_OFFSET_COMMIT_INTERVAL = 500 ∧
      runLoopIter true (Except.ok ()) [] 1 0 2 500 =
        (if 0 < 1 then (([] : List Action) ++ [Action.commit], none, 2 + 500)
         else ([], none, 0))) :=
  ⟨rfl, periodic_commit_schedule exCtxAcc [] true [] 1 0 2 500 [] rfl⟩

/-! ### C8: at most one in-flight election per group -/

/-- C8: `try_spawn_consumer_member` launches a background election only
when the election watch shows no current leader; and
`try_become_leader_bg` goes through `entry(..).or_insert_with(..)`, so a
launch while an attempt for the group is already in flight leaves the
existing attempt in place (the state is unchanged), while a launch with
no attempt in flight records exactly one new attempt for the group. -/
theorem election_launch_policy (st : BackendState) (cg : Nat)
    (li : LeaderInfo) :
    (trySpawnConsumerMemberElection st (some li) cg = st) ∧
    (∀ h, lookupBT st.background_leader_attempt cg = some h →
      tryBecomeLeaderBg st cg = st) ∧
    (lookupBT st.background_leader_attempt cg = none →
      tryBecomeLeaderBg st cg =
        { st with
          background_leader_attempt :=
            insertBT cg { consumer_group_id := cg, task_id := st.next_task_id }
              st.background_leader_attempt
          next_task_id := st.next_task_id + 1 }) ∧
    (trySpawnConsumerMemberElection st none cg = tryBecomeLeaderBg st cg) := by
  refine ⟨rfl, ?_, ?_, rfl⟩
  · intro h hl
    unfold tryBecomeLeaderBg
    rw [hl]
  · intro hl
    unfold tryBecomeLeaderBg
    rw [hl]

/-- A backend state with an in-flight election for group 7. -/
def exBackendBusy : BackendState :=
  { background_leader_attempt := [(7, { consumer_group_id := 7, task_id := 0 })],
    leader_handles := [], next_task_id := 1 }

/-- Witness for C8: launching for group 7 while its attempt is in flight
leaves the state unchanged. -/
theorem election_launch_policy_witness :
    tryBecomeLeaderBg exBackendBusy 7 = exBackendBusy :=
  (election_launch_policy exBackendBusy 7 { info_id := 0 }).2.1
    { consumer_group_id := 7, task_id := 0 } rfl

/-! ### C9: resolution of a background election -/

/-- C9: when a background election for a group resolves, the group's
in-flight handle is removed; on a won lease a new leader node task is
spawned and recorded, and a pre-existing leader handle for the group is
aborted; on a lost or errored election the leader handles are unchanged
and no leader node is spawned (the outcome is only logged). -/
theorem election_resolution_policy (st : BackendState) (cg : Nat)
    (res : ElectionOutcome) :
    (lookupBT (onElectionResolved st cg res).1.background_leader_attempt cg
      = none) ∧
    (∀ lk ll, res = ElectionOutcome.won lk ll →
      (onElectionResolved st cg res).1.leader_handles =
          insertBT cg { consumer_group_id := cg, task_id := st.next_task_id }
            st.leader_handles ∧
        CoordEffect.spawnedLeaderNode st.next_task_id ∈
          (onElectionResolved st cg res).2 ∧
        (∀ old, lookupBT st.leader_handles cg = some old →
          CoordEffect.abortedTask old.task_id ∈
            (onElectionResolved st cg res).2)) ∧
    ((res = ElectionOutcome.lost ∨ ∃ e, res = ElectionOutcome.errored e) →
      (onElectionResolved st cg res).1.leader_handles = st.leader_handles ∧
        ∀ tid, CoordEffect.spawnedLeaderNode tid ∉
          (onElectionResolved st cg res).2) := by
  refine ⟨?_, ?_, ?_⟩
  · cases res with
    | won lk ll =>
      simp only [onElectionResolved, createLeaderNode]
      exact lookupBT_eraseBT cg st.background_leader_attempt
    | lost =>
      simp only [onElectionResolved]
      exact lookupBT_eraseBT cg st.background_leader_attempt
    | errored e =>
      simp only [onElectionResolved]
      exact lookupBT_eraseBT cg st.background_leader_attempt
  · intro lk ll hres
    subst hres
    refine ⟨rfl, by simp [onElectionResolved, createLeaderNode], ?_⟩
    intro old hold
    simp only [onElectionResolved, createLeaderNode, hold]
    simp
  · intro hres
    rcases hres with hres | ⟨e, hres⟩ <;> subst hres <;>
      exact ⟨rfl, by intro tid; simp [onElectionResolved]⟩

/-- A backend state holding a leader handle for group 7. -/
def exBackendLeader : BackendState :=
  { background_leader_attempt := [(7, { consumer_group_id := 7, task_id := 0 })],
    leader_handles := [(7, { consumer_group_id := 7, task_id := 1 })],
    next_task_id := 2 }

/-- Witness for C9: a won election for group 7 removes the in-flight
handle, spawns leader task 2 and aborts the old leader task 1. -/
theorem election_resolution_policy_witness :
    (lookupBT (onElectionResolved exBackendLeader 7
        (ElectionOutcome.won 3 4)).1.background_leader_attempt 7 = none) ∧
    (onElectionResolved exBackendLeader 7
        (ElectionOutcome.won 3 4)).1.leader_handles =
      insertBT 7 { consumer_group_id := 7, task_id := 2 }
        exBackendLeader.leader_handles ∧
    CoordEffect.spawnedLeaderNode 2 ∈
      (onElectionResolved exBackendLeader 7 (ElectionOutcome.won 3 4)).2 ∧
    CoordEffect.abortedTask 1 ∈
      (onElectionResolved exBackendLeader 7 (ElectionOutcome.won 3 4)).2 := by
  have h := election_resolution_policy exBackendLeader 7
    (ElectionOutcome.won 3 4)
  have h2 := h.2.1 3 4 rfl
  exact ⟨h.1, h2.1, h2.2.1,
    h2.2.2 { consumer_group_id := 7, task_id := 1 } rfl⟩

/-! ### C10: closed-backend-channel behaviour of the client entry points -/

/-- C10: with the backend command channel closed,
`create_consumer_group` panics ("ConsumerGroupCoordinatorBackend channel
is closed") while `try_join_consumer_group` returns an error to the
caller; with the channel open, `create_consumer_group` never panics. -/
theorem client_entry_points_closed_channel (r : Except String Nat)
    (r' s : Except String Unit) :
    createConsumerGroupEntry false r =
        ClientOutcome.panicked
          "ConsumerGroupCoordinatorBackend channel is closed" ∧
      (∃ e, tryJoinConsumerGroupEntry false r' s = ClientOutcome.err e) ∧
      (∀ msg, tryJoinConsumerGroupEntry false r' s ≠
        ClientOutcome.panicked msg) ∧
      (∀ msg, createConsumerGroupEntry true r ≠
        ClientOutcome.panicked msg) := by
  refine ⟨rfl, ⟨"channel closed", rfl⟩, ?_, ?_⟩
  · intro msg
    simp [tryJoinConsumerGroupEntry]
  · intro msg
    cases r <;> simp [createConsumerGroupEntry]

end Yellowstone
